import Mathlib

/-!
Shallow embedding of the uniFi portfolio-simulation core
(src/AgentLayer/ConventionalAgents/HRAgent.py and
src/AgentLayer/DataSplitter/TimeSeriesSplitter.py), together with
theorems settling the specification claims about it.

Conventions of the embedding:
* pandas DataFrame panels are lists of rows; a sliced frame with a
  factorized date index is a list of (index, row) pairs;
* Python floats are modelled as rationals (exact arithmetic);
* Python exceptions are modelled by an explicit error type carried in
  `Except`; a raised exception aborts the computation, matching the
  absence of try/except handlers along the relevant paths;
* the external regression model and the external nonlinear solver
  (pypfopt EfficientFrontier.nonconvex_objective, including its
  construction) are injected as explicit function parameters, since the
  repository only orchestrates them;
* NumPy length-1 broadcasting is not modelled: element-wise division and
  `np.dot` of one-dimensional arrays require equal lengths, as they do in
  the simulator's intended use where every vector has one entry per
  asset.  Theorems conditioned on a successful step therefore describe
  this aligned regime, and no theorem asserts that a length mismatch
  makes the program fail (NumPy would broadcast a length-1 operand).
-/

namespace UniFi

/-- Equality of `Except` outcomes is decidable when both payload types
have decidable equality; used to evaluate the embedding on concrete
inputs. -/
instance {ε α : Type} [DecidableEq ε] [DecidableEq α] : DecidableEq (Except ε α) :=
  fun x y =>
    match x, y with
    | .ok a, .ok b =>
      if h : a = b then .isTrue (congrArg Except.ok h)
      else .isFalse (fun hc => h (Except.ok.inj hc))
    | .error a, .error b =>
      if h : a = b then .isTrue (congrArg Except.error h)
      else .isFalse (fun hc => h (Except.error.inj hc))
    | .ok _, .error _ => .isFalse (fun hc => Except.noConfusion hc)
    | .error _, .ok _ => .isFalse (fun hc => Except.noConfusion hc)

/-- Python runtime errors that the embedded code paths can raise. -/
inductive PyError where
  | nameError (name : String)
  | unboundLocal (name : String)
  | indexError
  | keyError (key : String)
  | valueError (msg : String)
  | attributeError (msg : String)
  | zeroDivisionError
deriving Repr, DecidableEq

/-- One row of the long-form panel: date, ticker, close price, the
feature columns as a (column-name, value) association list, and the
per-row historical-return table used for covariance estimation
(column per ticker). -/
structure Row where
  date : Int
  tic : String
  close : ℚ
  feats : List (String × ℚ)
  return_list : List (String × List ℚ)
deriving Repr, DecidableEq

/-- Helper for `uniqueFirst`: drop elements already seen. -/
def uniqueFirstAux {α : Type} [DecidableEq α] (seen : List α) : List α → List α
  | [] => []
  | a :: l => if a ∈ seen then uniqueFirstAux seen l else a :: uniqueFirstAux (a :: seen) l

/-- pandas `.unique()`: the distinct values of a column in order of first
appearance. -/
def uniqueFirst {α : Type} [DecidableEq α] (l : List α) : List α :=
  uniqueFirstAux [] l

/-- pandas `.factorize()[0]`: each value replaced by the position of its
first occurrence among the distinct values in first-appearance order. -/
def factorize (l : List Int) : List Nat :=
  l.map (fun d => List.indexOf d (uniqueFirst l))

/-- The boolean sort key of `sort_values([date, "tic"])`: ascending
lexicographic order on (date, ticker). -/
def dateTicLe (a b : Row) : Bool :=
  a.date < b.date || (a.date = b.date && a.tic ≤ b.tic)

/-- `TimeSeriesSplitter.get_split_data(df, start, end)`: keep rows with
date in [start, end], sort by (date, tic), and attach as index the dense
integer code of the date column (`data.index = data[col].factorize()[0]`). -/
def get_split_data (df : List Row) (start : Int) (stop : Int) : List (Nat × Row) :=
  let data := df.filter (fun r => start ≤ r.date && r.date ≤ stop)
  let sorted := data.mergeSort dateTicLe
  (factorize (sorted.map Row.date)).zip sorted

/-- `TimeSeriesSplitter.get_next_df_date(df, date, day)`: collect the
distinct index labels of rows with a strictly later date, then — guarded
by the test `len(df.index) > 0`, which checks the whole frame and not the
filtered labels — select label number `day - 1` (IndexError when it does
not exist) and evaluate `df.loc[label].date.unique()[0]`.  When the label
matches two or more rows, `df.loc` yields a DataFrame, `.date` its date
column, and the first distinct date is returned; when the label matches
exactly one row, `df.loc` squeezes to a Series, `.date` is then the
scalar cell, and `.unique()` on it raises AttributeError.  Only an
entirely empty frame reaches the `-1` sentinel branch. -/
def get_next_df_date (df : List (Nat × Row)) (date : Int) (day : Nat := 1) :
    Except PyError Int :=
  let index := uniqueFirst ((df.filter (fun p => date < p.2.date)).map Prod.fst)
  if 0 < df.length then
    match index.get? (day - 1) with
    | none => .error .indexError
    | some idx =>
      match (df.filter (fun p => p.1 = idx)).map (fun p => p.2.date) with
      | [] => .error (.keyError "label")
      | [_] => .error (.attributeError "unique")
      | d :: _ :: _ => .ok d
  else
    .ok (-1)

/-- Dot product of two rational vectors (`np.dot` on equal-length 1-D
arrays; callers check the length precondition). -/
def dotQ (a b : List ℚ) : ℚ :=
  (List.zipWith (fun x y => x * y) a b).sum

/-- A covariance matrix labelled by tickers, as produced by
`risk_models.sample_cov`. -/
structure CovMatrix where
  tickers : List String
  entries : List (List ℚ)
deriving Repr, DecidableEq

/-- Mean of a return series. -/
def seriesMean (xs : List ℚ) : ℚ :=
  xs.sum / (xs.length : ℚ)

/-- Sample covariance of two aligned return series, normalised by n-1. -/
def covPair (xs ys : List ℚ) : ℚ :=
  (List.zipWith (fun a b => (a - seriesMean xs) * (b - seriesMean ys)) xs ys).sum
    / ((xs.length : ℚ) - 1)

/-- `risk_models.sample_cov(returns, returns_data=True)`: annualised
(frequency 252) sample covariance of the per-ticker return columns. -/
def sample_cov (returns : List (String × List ℚ)) : CovMatrix :=
  { tickers := returns.map Prod.fst
    entries := returns.map (fun c => returns.map (fun d => 252 * covPair c.2 d.2)) }

/-- `df_current[feature_list]` for one row: look every requested feature
column up, raising KeyError on a missing column. -/
def rowFeatures (r : Row) : List String → Except PyError (List ℚ)
  | [] => .ok []
  | c :: cs =>
    match r.feats.lookup c with
    | none => .error (.keyError c)
    | some v =>
      match rowFeatures r cs with
      | .error e => .error e
      | .ok vs => .ok (v :: vs)

/-- `df_current[feature_list].values`: the feature matrix of a slice,
row by row. -/
def extractFeatures (cols : List String) : List Row → Except PyError (List (List ℚ))
  | [] => .ok []
  | r :: rs =>
    match rowFeatures r cols with
    | .error e => .error e
    | .ok v =>
      match extractFeatures cols rs with
      | .error e => .error e
      | .ok vs => .ok (v :: vs)

/-- `HRAgent._return_predict(unique_trade_date, test_data, i, feature_list)`:
slice the panel at dates i and i+1 of the calendar, read the tickers of the
current slice, predict expected returns over its feature matrix with the
injected regression model, and estimate risk from the first row's
historical-return table (`df_current.return_list[0]`, a lookup that raises
on an empty slice). -/
def _return_predict (model : List (List ℚ) → List ℚ)
    (unique_trade_date : List Int) (test_data : List Row) (i : Nat)
    (feature_list : List String) :
    Except PyError (List ℚ × CovMatrix × List String × List Row × List Row) :=
  match unique_trade_date.get? i, unique_trade_date.get? (i + 1) with
  | some current_date, some next_date =>
    let df_current := test_data.filter (fun r => r.date = current_date)
    let df_next := test_data.filter (fun r => r.date = next_date)
    let tics := df_current.map Row.tic
    match extractFeatures feature_list df_current with
    | .error e => .error e
    | .ok features =>
      let mu := model features
      match df_current.head? with
      | none => .error (.keyError "0")
      | some r0 => .ok (mu, sample_cov r0.return_list, tics, df_current, df_next)
  | _, _ => .error .indexError

/-- The per-date weight/return history dict `meta_coefficient`: the date
list plus one list of recorded weights per ticker key. -/
structure Meta where
  dates : List Int
  coeffs : List (String × List ℚ)
deriving Repr, DecidableEq

/-- `meta_coefficient[tic] += [w]`: append to an existing key, KeyError
when the ticker is not a key of the dict. -/
def metaAppend1 (m : Meta) (tw : String × ℚ) : Except PyError Meta :=
  if m.coeffs.any (fun p => p.1 = tw.1) then
    .ok { m with
          coeffs := m.coeffs.map (fun p => if p.1 = tw.1 then (p.1, p.2 ++ [tw.2]) else p) }
  else
    .error (.keyError tw.1)

/-- The recording loop over the merged weight table. -/
def metaAppendAll (m : Meta) : List (String × ℚ) → Except PyError Meta
  | [] => .ok m
  | tw :: rest =>
    match metaAppend1 m tw with
    | .error e => .error e
    | .ok m2 => metaAppendAll m2 rest

/-- The optimization problem `_weight_optimization` hands to the external
solver: objective data (mu, sigma, previous weights, transaction-cost
rate) plus the constraints the code passes — box bounds `min_weight = 0`,
`max_weight = 1` and `weights_sum_to_one=True`. -/
structure SolverSpec where
  mu : List ℚ
  sigma : CovMatrix
  w_prev : List ℚ
  k : ℚ
  min_weight : ℚ
  max_weight : ℚ
  weights_sum_to_one : Bool
deriving Repr, DecidableEq

/-- The external nonlinear solver (EfficientFrontier construction,
objective registration and `nonconvex_objective` together): it returns an
ordered ticker-to-weight dictionary, or an explicit error. -/
def Solver : Type :=
  SolverSpec → Except PyError (List (String × ℚ))

/-- The problem instance the code builds at one step: the box bounds and
the sum-to-one flag are hard-wired by `_weight_optimization`
(`min_weight, max_weight = 0, 1` and `weights_sum_to_one=True`). -/
def woptSpec (mu : List ℚ) (sigma : CovMatrix) (w_prev : List ℚ) (k : ℚ) : SolverSpec :=
  { mu := mu
    sigma := sigma
    w_prev := w_prev
    k := k
    min_weight := 0
    max_weight := 1
    weights_sum_to_one := true }

/-- The contract of a convergent solver: whenever it reports success, the
returned weights respect the requested constraints within tolerance
`tol` — the sum-to-one equality when requested, and the box bounds. -/
def SolverFeasible (solver : Solver) (tol : ℚ) : Prop :=
  ∀ spec w, solver spec = .ok w →
    (spec.weights_sum_to_one = true → |(w.map Prod.snd).sum - 1| ≤ tol) ∧
    ∀ p ∈ w, spec.min_weight - tol ≤ p.2 ∧ p.2 ≤ spec.max_weight + tol

/-- pandas `DataFrame(weight_df).merge(predicted_y_df, on=["tic"])`:
inner join in left-frame key order, one output row per matching pair. -/
def mergeOnTic (weights : List (String × ℚ)) (predicted : List (String × ℚ)) :
    List (String × ℚ × ℚ) :=
  weights.flatMap (fun tw =>
    (predicted.filter (fun p => p.1 = tw.1)).map (fun p => (tw.1, tw.2, p.2)))

/-- `HRAgent._weight_optimization`: build the per-ticker predicted-return
table (ValueError when `tics` and `mu` disagree in length), read the
previous weights `weight_arr[-1]` (IndexError on an empty history), call
the external solver on the problem with box bounds [0, 1] and the
sum-to-one constraint, record date and merged weights into the history,
append the new weight list, convert weights to share counts at current
close prices and mark to market at next close prices, writing
`portfolio[i+1] = dot(shares, next_price)`.  Returns the updated
portfolio row, weight history and coefficient dict. -/
def _weight_optimization (solver : Solver) (i : Nat) (unique_trade_date : List Int)
    (meta_coefficient : Meta) (mu : List ℚ) (sigma : CovMatrix) (tics : List String)
    (portfolio : List ℚ) (df_current : List Row) (df_next : List Row)
    (transaction_cost_pct : ℚ) (weight_arr : List (List ℚ)) :
    Except PyError (List ℚ × List (List ℚ) × Meta) :=
  match unique_trade_date.get? i with
  | none => .error .indexError
  | some current_date =>
    if tics.length = mu.length then
      let predicted_y_df := tics.zip mu
      match weight_arr.getLast? with
      | none => .error .indexError
      | some w_prev =>
        match solver (woptSpec mu sigma w_prev transaction_cost_pct) with
        | .error e => .error e
        | .ok weights =>
          let meta1 : Meta :=
            { meta_coefficient with dates := meta_coefficient.dates ++ [current_date] }
          let weight_df := mergeOnTic weights predicted_y_df
          match metaAppendAll meta1 (weight_df.map (fun x => (x.1, x.2.1))) with
          | .error e => .error e
          | .ok meta2 =>
            let new_weights := weight_df.map (fun x => x.2.1)
            let weight_arr2 := weight_arr ++ [new_weights]
            match portfolio.get? i with
            | none => .error .indexError
            | some cap =>
              let current_cash := weights.map (fun tw => tw.2 * cap)
              if current_cash.length = df_current.length then
                let current_shares :=
                  List.zipWith (fun c p => c / p) current_cash (df_current.map Row.close)
                let next_price := df_next.map Row.close
                if current_shares.length = next_price.length then
                  if i + 1 < portfolio.length then
                    .ok (portfolio.set (i + 1) (dotQ current_shares next_price),
                         weight_arr2, meta2)
                  else .error .indexError
                else .error (.valueError "shapes not aligned")
              else .error (.valueError "operands could not be broadcast together")
    else .error (.valueError "All arrays must be of the same length")

/-- `HRAgent.train_model`: fit the model inside a try/except that catches
every exception and prints a message; a failed fit keeps the old model
and returns normally.  The injected `fit` stands for
`sklearn HuberRegressor.fit`, and the returned string is what the method
prints. -/
def train_model {M : Type} (model : M)
    (fit : M → List (List ℚ) → List ℚ → Except PyError M)
    (train_x : List (List ℚ)) (train_y : List ℚ) : M × String :=
  match fit model train_x train_y with
  | .ok trained => (trained, "Model trained succesfully")
  | .error _ => (model, "training unsuccessful")

/-- `HRAgent.predict`: set up the coefficient dict keyed by the panel's
tickers, the equal-weight seed (ZeroDivisionError on a panel with no
tickers), the calendar and the initial-capital cell
(`unique_trade_date[0]`), then run the step loop.  The loop body's first
expression evaluates the unbound name `tech_indicator_list`, so every
iteration raises NameError, and with an empty loop the read of the
loop-local `portfolio_value` after the loop raises UnboundLocalError;
the `feature_list` argument is never consulted on any path. -/
def predict (model : List (List ℚ) → List ℚ) (solver : Solver) (test_data : List Row)
    (initial_capital : ℚ) (transaction_cost_pct : ℚ) (feature_list : List String) :
    Except PyError (List (Int × ℚ) × Meta) :=
  let utics := uniqueFirst (test_data.map Row.tic)
  if utics.length = 0 then .error .zeroDivisionError
  else
    let unique_trade_date := uniqueFirst (test_data.map Row.date)
    match unique_trade_date.head? with
    | none => .error .indexError
    | some _ =>
      if 1 ≤ unique_trade_date.length - 1 then .error (.nameError "tech_indicator_list")
      else .error (.unboundLocal "portfolio_value")

/-! ### Helper lemmas about the embedding -/

theorem mem_uniqueFirstAux {α : Type} [DecidableEq α] (x : α) :
    ∀ (l seen : List α), x ∈ uniqueFirstAux seen l ↔ x ∈ l ∧ x ∉ seen := by
  intro l
  induction l with
  | nil => intro seen; simp [uniqueFirstAux]
  | cons a l ih =>
    intro seen
    by_cases ha : a ∈ seen
    · simp only [uniqueFirstAux, if_pos ha, ih, List.mem_cons]
      constructor
      · rintro ⟨hx, hns⟩; exact ⟨Or.inr hx, hns⟩
      · rintro ⟨hx | hx, hns⟩
        · subst hx; exact absurd ha hns
        · exact ⟨hx, hns⟩
    · simp only [uniqueFirstAux, if_neg ha, List.mem_cons, ih]
      by_cases hxa : x = a
      · subst hxa; tauto
      · tauto

theorem mem_uniqueFirst {α : Type} [DecidableEq α] (x : α) (l : List α) :
    x ∈ uniqueFirst l ↔ x ∈ l := by
  simp [uniqueFirst, mem_uniqueFirstAux]

theorem nodup_uniqueFirstAux {α : Type} [DecidableEq α] :
    ∀ (l seen : List α), (uniqueFirstAux seen l).Nodup := by
  intro l
  induction l with
  | nil => intro seen; simp [uniqueFirstAux]
  | cons a l ih =>
    intro seen
    by_cases ha : a ∈ seen
    · simpa [uniqueFirstAux, if_pos ha] using ih seen
    · simp only [uniqueFirstAux, if_neg ha, List.nodup_cons]
      refine ⟨fun hc => ?_, ih (a :: seen)⟩
      have := (mem_uniqueFirstAux a l (a :: seen)).mp hc
      exact this.2 (List.mem_cons_self a seen)

theorem nodup_uniqueFirst {α : Type} [DecidableEq α] (l : List α) :
    (uniqueFirst l).Nodup :=
  nodup_uniqueFirstAux l []

theorem uniqueFirst_cons {α : Type} [DecidableEq α] (a : α) (l : List α) :
    uniqueFirst (a :: l) = a :: uniqueFirstAux [a] l := by
  simp [uniqueFirst, uniqueFirstAux]

theorem uniqueFirst_nil_iff {α : Type} [DecidableEq α] (l : List α) :
    uniqueFirst l = [] ↔ l = [] := by
  cases l with
  | nil => simp [uniqueFirst, uniqueFirstAux]
  | cons a l => simp [uniqueFirst_cons]

theorem zip_map_self {α β : Type} (g : α → β) :
    ∀ l : List α, (l.map g).zip l = l.map (fun a => (g a, a)) := by
  intro l
  induction l with
  | nil => rfl
  | cons a l ih => simp [ih]

theorem dateTicLe_trans :
    ∀ a b c : Row, dateTicLe a b = true → dateTicLe b c = true → dateTicLe a c = true := by
  intro a b c hab hbc
  simp only [dateTicLe, Bool.or_eq_true, Bool.and_eq_true, decide_eq_true_eq] at *
  rcases hab with h1 | ⟨h1, h2⟩ <;> rcases hbc with h3 | ⟨h3, h4⟩
  · exact Or.inl (lt_trans h1 h3)
  · exact Or.inl (by rw [← h3]; exact h1)
  · exact Or.inl (by rw [h1]; exact h3)
  · exact Or.inr ⟨h1.trans h3, le_trans h2 h4⟩

theorem dateTicLe_total :
    ∀ a b : Row, (dateTicLe a b || dateTicLe b a) = true := by
  intro a b
  simp only [dateTicLe, Bool.or_eq_true, Bool.and_eq_true, decide_eq_true_eq]
  rcases lt_trichotomy a.date b.date with h | h | h
  · exact Or.inl (Or.inl h)
  · rcases le_total a.tic b.tic with ht | ht
    · exact Or.inl (Or.inr ⟨h, ht⟩)
    · exact Or.inr (Or.inr ⟨h.symm, ht⟩)
  · exact Or.inr (Or.inl h)

/-- `get_split_data` in closed form: each retained, sorted row is paired
with the position of its date's first occurrence among the distinct
dates of the sorted slice. -/
theorem get_split_data_eq_map (df : List Row) (s e : Int) :
    get_split_data df s e =
      ((df.filter (fun r => s ≤ r.date && r.date ≤ e)).mergeSort dateTicLe).map
        (fun rr => (List.indexOf rr.date
          (uniqueFirst
            (((df.filter (fun r => s ≤ r.date && r.date ≤ e)).mergeSort
              dateTicLe).map Row.date)), rr)) := by
  unfold get_split_data factorize
  dsimp only
  rw [List.map_map, zip_map_self]
  rfl

/-! ### Concrete fixtures used by witnesses and counterexamples -/

/-- A one-asset panel row on day 0. -/
def rowA0 : Row :=
  { date := 0, tic := "A", close := 10, feats := [("f", 1)], return_list := [("A", [0, 1])] }

/-- The same asset on day 1. -/
def rowA1 : Row :=
  { date := 1, tic := "A", close := 11, feats := [("f", 2)], return_list := [("A", [1, 0])] }

/-- The first asset again on day 5. -/
def rowA5 : Row :=
  { date := 5, tic := "A", close := 12, feats := [("f", 1)], return_list := [("A", [0, 1])] }

/-- A second asset on day 0. -/
def rowB0 : Row :=
  { date := 0, tic := "B", close := 20, feats := [("f", 3)], return_list := [("B", [0, 1])] }

/-- The second asset on day 5 (so the day-5 index label covers two
rows). -/
def rowB5 : Row :=
  { date := 5, tic := "B", close := 21, feats := [("f", 3)], return_list := [("B", [0, 1])] }

/-- A day-1 row whose ticker C replaces A. -/
def rowC1 : Row :=
  { date := 1, tic := "C", close := 11, feats := [("f", 4)], return_list := [("C", [0, 1])] }

/-- A day-1 row whose ticker D replaces B. -/
def rowD1 : Row :=
  { date := 1, tic := "D", close := 21, feats := [("f", 5)], return_list := [("D", [0, 1])] }

/-- A day-1 row with ticker E and the same close as `rowC1`. -/
def rowE1 : Row :=
  { date := 1, tic := "E", close := 11, feats := [("f", 6)], return_list := [("E", [0, 1])] }

/-- A day-1 row with ticker F and the same close as `rowD1`. -/
def rowF1 : Row :=
  { date := 1, tic := "F", close := 21, feats := [("f", 7)], return_list := [("F", [0, 1])] }

/-- A deterministic one-asset solver putting everything in A. -/
def solverA : Solver := fun _ => .ok [("A", 1)]

/-- A deterministic two-asset 50/50 solver. -/
def solverAB : Solver := fun _ => .ok [("A", 1/2), ("B", 1/2)]

/-- A solver honouring exactly the box/sum constraints the agent passes;
anything else is an explicit non-convergence error. -/
def solverBox : Solver := fun spec =>
  if spec.min_weight = 0 ∧ spec.max_weight = 1 ∧ spec.weights_sum_to_one = true then
    .ok [("A", 1)]
  else
    .error (.valueError "optimization failed to converge")

/-- A coefficient dict holding only the key A. -/
def metaA : Meta := { dates := [], coeffs := [("A", [])] }

/-- A coefficient dict holding the keys A and B. -/
def metaAB : Meta := { dates := [], coeffs := [("A", []), ("B", [])] }

/-- A one-asset covariance matrix. -/
def sigmaA : CovMatrix := { tickers := ["A"], entries := [[0]] }

/-- `solverBox` honours the feasibility contract with zero tolerance. -/
theorem solverBox_feasible : SolverFeasible solverBox 0 := by
  intro spec w h
  unfold solverBox at h
  split at h
  · rename_i hc
    obtain ⟨h0, h1, hs⟩ := hc
    injection h with h
    subst h
    constructor
    · intro _; norm_num
    · intro p hp
      simp only [List.mem_singleton] at hp
      subst hp
      rw [h0, h1]
      norm_num
  · exact absurd h (by simp)

/-! ### Claim theorems -/

/-- Claim C3: on every test panel with at least two distinct trading
dates, `predict` raises NameError for the unbound name
`tech_indicator_list` on the first loop iteration, and the
`feature_list` argument supplied by the caller is never used. -/
theorem predict_raises_nameError
    (model : List (List ℚ) → List ℚ) (solver : Solver) (test_data : List Row)
    (initial_capital transaction_cost_pct : ℚ) (feature_list : List String)
    (h : 2 ≤ (uniqueFirst (test_data.map Row.date)).length) :
    predict model solver test_data initial_capital transaction_cost_pct feature_list =
      .error (.nameError "tech_indicator_list") ∧
    ∀ fl2, predict model solver test_data initial_capital transaction_cost_pct feature_list =
      predict model solver test_data initial_capital transaction_cost_pct fl2 := by
  refine ⟨?_, fun fl2 => rfl⟩
  cases test_data with
  | nil => simp [uniqueFirst, uniqueFirstAux] at h
  | cons r rs =>
    rw [List.map_cons, uniqueFirst_cons] at h
    simp only [List.length_cons] at h
    unfold predict
    simp only [List.map_cons, uniqueFirst_cons, List.length_cons, List.head?_cons]
    rw [if_neg (by omega), if_pos (by omega)]

/-- Claim C3 witness: a concrete two-date panel realises the failure. -/
theorem predict_raises_nameError_witness :
    2 ≤ (uniqueFirst ([rowA0, rowA1].map Row.date)).length ∧
    predict (fun _ => []) solverA [rowA0, rowA1] 1000000 (1/1000) ["f"] =
      .error (.nameError "tech_indicator_list") :=
  ⟨by decide,
   (predict_raises_nameError (fun _ => []) solverA [rowA0, rowA1] 1000000 (1/1000) ["f"]
     (by decide)).1⟩

/-- Claim C1: at every successful optimization step, the next portfolio
value is the mark-to-market of the shares bought at current prices:
`portfolio[i+1] = dot(shares, next_prices)` with
`shares = weights * portfolio[i] / current_prices` element-wise, where
the weights are the ones the solver returned for this step, current
prices are the closes of the current-date slice and next prices the
closes of the next-date slice. -/
theorem weight_optimization_mark_to_market
    (solver : Solver) (i : Nat) (utd : List Int) (meta : Meta) (mu : List ℚ)
    (sigma : CovMatrix) (tics : List String) (portfolio : List ℚ)
    (df_current df_next : List Row) (k : ℚ) (weight_arr : List (List ℚ))
    (w_prev : List ℚ) (ws : List (String × ℚ))
    (res : List ℚ × List (List ℚ) × Meta)
    (hprev : weight_arr.getLast? = some w_prev)
    (hws : solver (woptSpec mu sigma w_prev k) = .ok ws)
    (hrun : _weight_optimization solver i utd meta mu sigma tics portfolio
      df_current df_next k weight_arr = .ok res) :
    res.1[i + 1]? =
      some (dotQ
        (List.zipWith (fun w c => w * portfolio.getD i 0 / c)
          (ws.map Prod.snd) (df_current.map Row.close))
        (df_next.map Row.close)) := by
  unfold _weight_optimization at hrun
  split at hrun
  · exact absurd hrun (by simp)
  · dsimp only at hrun
    split at hrun
    case isFalse => exact absurd hrun (by simp)
    case isTrue hlen =>
      split at hrun
      · exact absurd hrun (by simp)
      · rename_i w_prev2 hprev2
        rw [hprev] at hprev2
        injection hprev2 with hprev2
        subst hprev2
        split at hrun
        · rename_i e hsol
          rw [hws] at hsol
          exact absurd hsol (by simp)
        · rename_i ws2 hsol
          rw [hws] at hsol
          injection hsol with hsol
          subst hsol
          split at hrun
          · exact absurd hrun (by simp)
          · rename_i meta2 hmeta
            split at hrun
            · exact absurd hrun (by simp)
            · rename_i cap hcap
              split at hrun
              case isFalse => exact absurd hrun (by simp)
              case isTrue hlen2 =>
                split at hrun
                case isFalse => exact absurd hrun (by simp)
                case isTrue hlen3 =>
                  split at hrun
                  case isFalse => exact absurd hrun (by simp)
                  case isTrue hidx =>
                    injection hrun with hrun
                    subst hrun
                    dsimp only
                    rw [List.getElem?_set_self hidx]
                    have hcap2 : portfolio.getD i 0 = cap := by
                      rw [List.getD_eq_getElem?_getD, ← List.get?_eq_getElem?, hcap]
                      rfl
                    rw [hcap2, List.zipWith_map_left, List.zipWith_map_left]

/-- Claim C1 witness: a concrete one-asset step, 100 currency units at
price 10 marked to market at price 11, produces 110. -/
theorem weight_optimization_mark_to_market_witness :
    _weight_optimization solverA 0 [0, 1] metaA [1/10] sigmaA ["A"]
      [100, 0] [rowA0] [rowA1] 0 [[1]] =
      .ok ([100, 110], [[1], [1]], { dates := [0], coeffs := [("A", [1])] }) ∧
    ([(100 : ℚ), 110] : List ℚ)[1]? =
      some (dotQ
        (List.zipWith (fun w c => w * ([(100 : ℚ), 0] : List ℚ).getD 0 0 / c)
          (([("A", (1 : ℚ))] : List (String × ℚ)).map Prod.snd) ([rowA0].map Row.close))
        ([rowA1].map Row.close)) :=
  ⟨by norm_num [_weight_optimization, solverA, woptSpec, metaAppendAll, metaAppend1,
      mergeOnTic, dotQ, metaA, sigmaA, rowA0, rowA1, List.get?, List.getLast?],
   weight_optimization_mark_to_market solverA 0 [0, 1] metaA [1/10] sigmaA ["A"]
     [100, 0] [rowA0] [rowA1] 0 [[1]] [1] [("A", 1)]
     ([100, 110], [[1], [1]], { dates := [0], coeffs := [("A", [1])] })
     (by decide) (by decide)
     (by norm_num [_weight_optimization, solverA, woptSpec, metaAppendAll, metaAppend1,
       mergeOnTic, dotQ, metaA, sigmaA, rowA0, rowA1, List.get?, List.getLast?])⟩

/-- Claim C2: the agent hands the solver exactly the box constraints
[0, 1] and the sum-to-one constraint (`woptSpec`), so under the external
solver's contract (`SolverFeasible`), the weight vector of every
successful optimization step sums to 1 within the solver tolerance and
every weight lies in [0, 1] within the tolerance. -/
theorem weight_optimization_weights_feasible
    (solver : Solver) (tol : ℚ) (i : Nat) (utd : List Int) (meta : Meta) (mu : List ℚ)
    (sigma : CovMatrix) (tics : List String) (portfolio : List ℚ)
    (df_current df_next : List Row) (k : ℚ) (weight_arr : List (List ℚ))
    (w_prev : List ℚ) (res : List ℚ × List (List ℚ) × Meta)
    (hfeas : SolverFeasible solver tol)
    (hprev : weight_arr.getLast? = some w_prev)
    (hrun : _weight_optimization solver i utd meta mu sigma tics portfolio
      df_current df_next k weight_arr = .ok res) :
    ∃ ws, solver (woptSpec mu sigma w_prev k) = .ok ws ∧
      |(ws.map Prod.snd).sum - 1| ≤ tol ∧
      ∀ p ∈ ws, 0 - tol ≤ p.2 ∧ p.2 ≤ 1 + tol := by
  obtain ⟨ws, hws⟩ : ∃ ws, solver (woptSpec mu sigma w_prev k) = .ok ws := by
    unfold _weight_optimization at hrun
    split at hrun
    · exact absurd hrun (by simp)
    · dsimp only at hrun
      split at hrun
      case isFalse => exact absurd hrun (by simp)
      case isTrue hlen =>
        split at hrun
        · exact absurd hrun (by simp)
        · rename_i w_prev2 hprev2
          rw [hprev] at hprev2
          injection hprev2 with hprev2
          subst hprev2
          split at hrun
          · exact absurd hrun (by simp)
          · rename_i ws2 hsol
            exact ⟨ws2, hsol⟩
  have hc := hfeas _ _ hws
  refine ⟨ws, hws, ?_, ?_⟩
  · simpa [woptSpec] using hc.1 rfl
  · intro p hp
    simpa [woptSpec] using hc.2 p hp

/-- Claim C2 witness: a feasibility-honouring solver on a concrete
successful step yields weights summing to one inside [0, 1]. -/
theorem weight_optimization_weights_feasible_witness :
    ∃ ws, solverBox (woptSpec [1/10] sigmaA [1] 0) = .ok ws ∧
      |(ws.map Prod.snd).sum - 1| ≤ 0 ∧
      ∀ p ∈ ws, 0 - 0 ≤ p.2 ∧ p.2 ≤ 1 + 0 :=
  weight_optimization_weights_feasible solverBox 0 0 [0, 1] metaA [1/10] sigmaA ["A"]
    [100, 0] [rowA0] [rowA1] 0 [[1]] [1]
    ([100, 110], [[1], [1]], { dates := [0], coeffs := [("A", [1])] })
    solverBox_feasible (by decide)
    (by norm_num [_weight_optimization, solverBox, woptSpec, metaAppendAll, metaAppend1,
      mergeOnTic, dotQ, metaA, sigmaA, rowA0, rowA1, List.get?, List.getLast?])

/-- Claim C6 counterexample: a step whose current slice holds tickers
A, B and whose next slice holds the different tickers C, D (same
cardinality) is not rejected: `_weight_optimization` returns a normal
result, silently marking the A/B shares to market against the C/D
prices. -/
theorem weight_optimization_accepts_ticker_mismatch :
    [rowA0, rowB0].map Row.tic = ["A", "B"] ∧
    [rowC1, rowD1].map Row.tic = ["C", "D"] ∧
    _weight_optimization solverAB 0 [0, 1] metaAB [1/10, 1/5] sigmaA ["A", "B"]
      [100, 0] [rowA0, rowB0] [rowC1, rowD1] 0 [[1/2, 1/2]] =
      .ok ([100, 215/2], [[1/2, 1/2], [1/2, 1/2]],
           { dates := [0], coeffs := [("A", [1/2]), ("B", [1/2])] }) := by
  refine ⟨by decide, by decide, ?_⟩
  norm_num +decide [_weight_optimization, solverAB, woptSpec, metaAppendAll, metaAppend1,
    mergeOnTic, dotQ, metaAB, sigmaA, rowA0, rowB0, rowC1, rowD1,
    List.get?, List.getLast?]

/-- Claim C6 amended: the ticker-set precondition is never checked —
`_weight_optimization` reads the two slices only through their
close-price columns (lines 238-242 touch nothing but `df_current.close`
and `df_next.close`), so any two next slices (or current slices) with
equal closes are indistinguishable to the step, whatever their tickers;
a ticker-set mismatch is silently accepted, never raised as a
data-integrity error. -/
theorem weight_optimization_ignores_slice_tickers
    (solver : Solver) (i : Nat) (utd : List Int) (meta : Meta) (mu : List ℚ)
    (sigma : CovMatrix) (tics : List String) (portfolio : List ℚ)
    (df_current df_current2 df_next df_next2 : List Row) (k : ℚ)
    (weight_arr : List (List ℚ))
    (hcur : df_current.map Row.close = df_current2.map Row.close)
    (hnext : df_next.map Row.close = df_next2.map Row.close) :
    _weight_optimization solver i utd meta mu sigma tics portfolio
      df_current df_next k weight_arr =
    _weight_optimization solver i utd meta mu sigma tics portfolio
      df_current2 df_next2 k weight_arr := by
  have hlen : df_current.length = df_current2.length := by
    have := congrArg List.length hcur
    simpa using this
  unfold _weight_optimization
  rw [hcur, hnext, hlen]

/-- Claim C6 amended witness: replacing the next slice's tickers C, D by
E, F (same closes) leaves the step's outcome unchanged. -/
theorem weight_optimization_ignores_slice_tickers_witness :
    _weight_optimization solverAB 0 [0, 1] metaAB [1/10, 1/5] sigmaA ["A", "B"]
      [100, 0] [rowA0, rowB0] [rowC1, rowD1] 0 [[1/2, 1/2]] =
    _weight_optimization solverAB 0 [0, 1] metaAB [1/10, 1/5] sigmaA ["A", "B"]
      [100, 0] [rowA0, rowB0] [rowE1, rowF1] 0 [[1/2, 1/2]] :=
  weight_optimization_ignores_slice_tickers solverAB 0 [0, 1] metaAB [1/10, 1/5]
    sigmaA ["A", "B"] [100, 0] [rowA0, rowB0] [rowA0, rowB0] [rowC1, rowD1]
    [rowE1, rowF1] 0 [[1/2, 1/2]] (by decide) (by decide)

/-- Claim C4: a one-date panel does not return a length-1 value series;
the empty step loop leaves the loop-local `portfolio_value` unassigned
and the line `portfolio = portfolio_value` after the loop raises
UnboundLocalError, so `predict` crashes instead of terminating
normally. -/
theorem predict_single_date_unboundLocal :
    predict (fun _ => []) solverA [rowA0] 1000000 (1/1000) ["f"] =
      .error (.unboundLocal "portfolio_value") := by decide

/-- Claim C5: the -1 sentinel branch is unreachable for non-empty
frames, because the guard tests `len(df.index)` (the whole frame)
instead of the filtered label list.  On the frame below (day 0 plus a
two-row day 5), querying past day 0 returns day 5, but querying from
the last date raises IndexError where the claim expects the sentinel;
moreover, when the next date's label covers a single row, `df.loc`
squeezes to a Series and `.date.unique()` raises AttributeError, so
even the claim's success half fails there. -/
theorem get_next_df_date_indexError_at_end :
    get_next_df_date [(0, rowA0), (1, rowA5), (1, rowB5)] 0 1 = .ok 5 ∧
    get_next_df_date [(0, rowA0), (1, rowA5), (1, rowB5)] 5 1 = .error .indexError ∧
    get_next_df_date [(0, rowA0), (1, rowA5)] 0 1 = .error (.attributeError "unique") ∧
    get_next_df_date [] 5 1 = .ok (-1) := by decide

/-- Claim C7: the caller of `predict` never receives a (partial) result
table: every run aborts with an explicit error before any table is
built, since no exception raised inside the step loop is caught. -/
theorem predict_never_returns_partial_table
    (model : List (List ℚ) → List ℚ) (solver : Solver) (test_data : List Row)
    (initial_capital transaction_cost_pct : ℚ) (feature_list : List String) :
    ∃ e, predict model solver test_data initial_capital transaction_cost_pct feature_list =
      Except.error e := by
  unfold predict
  dsimp only
  split
  · exact ⟨_, rfl⟩
  · split
    · exact ⟨_, rfl⟩
    · split
      · exact ⟨_, rfl⟩
      · exact ⟨_, rfl⟩

/-- Claim C8: `train_model` does not propagate a fit failure: when the
underlying `fit` raises, the exception is caught, the message
"training unsuccessful" is printed, the previous model is kept and the
method returns normally. -/
theorem train_model_swallows_failure {M : Type} (model : M)
    (fit : M → List (List ℚ) → List ℚ → Except PyError M)
    (train_x : List (List ℚ)) (train_y : List ℚ) (e : PyError)
    (hfail : fit model train_x train_y = .error e) :
    train_model model fit train_x train_y = (model, "training unsuccessful") := by
  unfold train_model
  rw [hfail]

/-- Claim C8 witness: a concretely failing fit is swallowed. -/
theorem train_model_swallows_failure_witness :
    train_model (0 : ℚ) (fun _ _ _ => .error .indexError) [] [] =
      ((0 : ℚ), "training unsuccessful") :=
  train_model_swallows_failure 0 (fun _ _ _ => .error .indexError) [] [] .indexError rfl

/-- Claim C9: `predict` is deterministic: two runs on equal panels with
the same capital, cost rate, feature list, fitted model and solver
produce equal outcomes. -/
theorem predict_deterministic
    (m1 m2 : List (List ℚ) → List ℚ) (s1 s2 : Solver) (t1 t2 : List Row)
    (c1 c2 k1 k2 : ℚ) (f1 f2 : List String)
    (hm : m1 = m2) (hs : s1 = s2) (ht : t1 = t2) (hc : c1 = c2) (hk : k1 = k2)
    (hf : f1 = f2) :
    predict m1 s1 t1 c1 k1 f1 = predict m2 s2 t2 c2 k2 f2 := by
  subst hm hs ht hc hk hf; rfl

/-- Claim C9 witness: two identically configured concrete runs agree. -/
theorem predict_deterministic_witness :
    predict (fun _ => []) solverA [rowA0, rowA1] 1000000 (1/1000) ["f"] =
      predict (fun _ => []) solverA [rowA0, rowA1] 1000000 (1/1000) ["f"] :=
  predict_deterministic (fun _ => []) (fun _ => []) solverA solverA
    [rowA0, rowA1] [rowA0, rowA1] 1000000 1000000 (1/1000) (1/1000) ["f"] ["f"]
    rfl rfl rfl rfl rfl rfl

/-- Claim C10: for bounds start ≤ end, `get_split_data` returns exactly
the rows with date in [start, end] (as a permutation of the filtered
input), sorted by (date, ticker), indexed by a dense integer date code:
two result rows carry the same code exactly when they carry the same
date, and every code below the number of distinct dates is attained.
The input panel itself is untouched (the embedding is pure: the result
is built from a filtered copy). -/
theorem get_split_data_spec (df : List Row) (s e : Int) (h : s ≤ e) :
    ((get_split_data df s e).map Prod.snd).Perm
        (df.filter (fun r => s ≤ r.date && r.date ≤ e)) ∧
    List.Pairwise (fun a b : Row => dateTicLe a b = true)
        ((get_split_data df s e).map Prod.snd) ∧
    (∀ p ∈ get_split_data df s e, ∀ q ∈ get_split_data df s e,
        (p.1 = q.1 ↔ p.2.date = q.2.date)) ∧
    ∀ c < (uniqueFirst ((get_split_data df s e).map (fun p => p.2.date))).length,
      ∃ p ∈ get_split_data df s e, p.1 = c := by
  have hsnd : (get_split_data df s e).map Prod.snd =
      (df.filter (fun r => s ≤ r.date && r.date ≤ e)).mergeSort dateTicLe := by
    rw [get_split_data_eq_map, List.map_map]
    exact List.map_id _
  refine ⟨?_, ?_, ?_, ?_⟩
  · rw [hsnd]
    exact List.mergeSort_perm _ dateTicLe
  · rw [hsnd]
    exact @List.sorted_mergeSort Row dateTicLe dateTicLe_trans dateTicLe_total _
  · rw [get_split_data_eq_map]
    intro p hp q hq
    simp only [List.mem_map] at hp hq
    obtain ⟨rp, hrp, rfl⟩ := hp
    obtain ⟨rq, hrq, rfl⟩ := hq
    dsimp only
    exact List.indexOf_inj
      ((mem_uniqueFirst _ _).mpr (List.mem_map_of_mem Row.date hrp))
      ((mem_uniqueFirst _ _).mpr (List.mem_map_of_mem Row.date hrq))
  · have hdates : (get_split_data df s e).map (fun p => p.2.date) =
        ((df.filter (fun r => s ≤ r.date && r.date ≤ e)).mergeSort dateTicLe).map
          Row.date := by
      rw [get_split_data_eq_map, List.map_map]
      rfl
    rw [hdates]
    intro c hc
    obtain ⟨r, hr, hrd⟩ := List.mem_map.mp ((mem_uniqueFirst _ _).mp
      (List.get_mem _ c hc))
    rw [get_split_data_eq_map]
    refine ⟨(List.indexOf r.date
      (uniqueFirst (((df.filter (fun r => s ≤ r.date && r.date ≤ e)).mergeSort
        dateTicLe).map Row.date)), r), List.mem_map_of_mem _ hr, ?_⟩
    dsimp only
    rw [hrd]
    exact List.get_indexOf (nodup_uniqueFirst _) ⟨c, hc⟩

/-- Claim C10 witness: the splitter contract on a concrete panel with
an out-of-range row and unsorted input. -/
theorem get_split_data_spec_witness :
    ((get_split_data [rowA5, rowB0, rowA0] 0 1).map Prod.snd).Perm
      ([rowA5, rowB0, rowA0].filter (fun r => 0 ≤ r.date && r.date ≤ 1)) :=
  (get_split_data_spec [rowA5, rowB0, rowA0] 0 1 (by decide)).1

end UniFi
